import Mathlib

/-!
Shallow embedding of the my_Vlog validation / persistence layer.

Sources embedded here:
* `src/unnamed/part_000` (api.profile.js): `validateProfileData`, `isValidURL`.
* `src/unnamed/part_001` (api.posts.js): `getPostByIdOrSlug`, `createPost`,
  `updatePost`, `deletePost`, `getPostBySlug`, `validatePostData`,
  `isValidSlug`, `generateSlug`.
* `src/upload.js`: `validateImageFile`, `uploadImage`.
* `src/config.js`: `APP_CONFIG` limits and `ADMIN_UIDS`.
* `src/my_Vlog-main/js/render.js`, the auth.js document after its
  separator: `requireAuth`, `isAdmin`, `requireAdmin`.

Conventions of the embedding:
* JavaScript strings are `List Char`; `chars` converts a Lean string literal.
* A thrown `Error` is `Except.error` of the `Err` code naming the message;
  sequential statements that can throw become nested matches, so the first
  failing check decides the result, as in the source.
* Dynamically typed field values are `JVal` (string, array, null, or a
  generic truthy non-string value `jother`); a field absent from the input
  object (`data.field !== undefined` is false) is `none`.
* The browser's `new URL` parser (a platform API, not repository code) is
  an explicit parameter `chk : List Char → Bool` of every validator that
  consults `isValidURL`.
* The Firestore backend is a `Store`: an association list of document id ×
  record plus a counter used to generate fresh document ids for `add`.
  A `limit(1)` query returns the first matching document in store order.
  Firestore's `doc(id).update` fails when the document is absent
  (`backendNotFound`); `doc(id).delete` on an absent document is a no-op.
* `timestamp.now()` is an explicit `now : Nat` argument.
-/

def chars (s : String) : List Char := s.data

/-- The character class of JavaScript `\s` (ASCII part), also what `trim`
removes from the ends of a string. -/
def jsWsChar (c : Char) : Bool :=
  c == ' ' || c == '\t' || c == '\n' || c == '\r' || c == '\x0b' || c == '\x0c'

/-- JavaScript `String.prototype.trim`. -/
def trimChars (l : List Char) : List Char :=
  ((l.dropWhile jsWsChar).reverse.dropWhile jsWsChar).reverse

/-! `APP_CONFIG` from `src/config.js`. -/

def maxTitleLength : Nat := 120
def maxTagLength : Nat := 16
def maxTagCount : Nat := 10
def maxDisplayNameLength : Nat := 40
def maxImageSize : Nat := 5 * 1024 * 1024
def allowedImageTypes : List (List Char) :=
  [chars "image/jpeg", chars "image/png", chars "image/gif", chars "image/webp"]
def ADMIN_UIDS : List (List Char) := [chars "SjLJvvCJciUyhwWR6vaJnqQXUpx2"]

/-- A dynamically typed JavaScript value as far as the validators can
distinguish one: a string, an array of values, `null`/`undefined`-like
falsy non-strings, or any other (truthy) non-string value. -/
inductive JVal where
  | jstr (s : List Char)
  | jarr (xs : List JVal)
  | jnull
  | jother

/-- JavaScript truthiness test `!v` (negated): a string is falsy iff empty;
arrays and generic objects are truthy; `null` is falsy. -/
def JVal.falsy : JVal → Bool
  | .jstr s => s.isEmpty
  | .jarr _ => false
  | .jnull => true
  | .jother => false

/-- Error codes naming the messages thrown by the source. -/
inductive Err where
  | typeErr          -- "... 必须是字符串" / not a string
  | tooLong          -- a string field exceeds its length limit
  | tagNotArray      -- "标签必须是数组"
  | tooManyTags      -- "标签数量不能超过 ... 个"
  | tagTooLong       -- "标签长度不能超过 ... 个字符"
  | requiredMissing  -- "标题不能为空" / "内容不能为空"
  | invalidURL       -- "... 必须是有效的 URL"
  | invalidStatus    -- "状态必须是 draft 或 published"
  | invalidSlug      -- "URL 标识只能包含字母、数字和连字符..."
  | slugConflict     -- "该 URL 标识已存在，请使用其他标识"
  | unauthenticated  -- requireAuth with no identity
  | forbidden        -- requireAdmin rejection / "只能编辑(删除)自己的文章"
  | notFound         -- "文章不存在"
  | backendNotFound  -- Firestore update() on a missing document
  | invalidFile      -- "不支持的文件类型..."
  | fileTooLarge     -- "文件大小不能超过 ...MB"
  | uploadFailed     -- fetch failure / missing secure_url
  | missingFile      -- "请选择文件"
  deriving DecidableEq

instance {ε α : Type} [DecidableEq ε] [DecidableEq α] : DecidableEq (Except ε α) := by
  intro a b
  cases a <;> cases b
  case error.error x y =>
    exact if h : x = y then .isTrue (by rw [h]) else .isFalse (by intro c; cases c; exact h rfl)
  case error.ok x y => exact .isFalse (by intro c; cases c)
  case ok.error x y => exact .isFalse (by intro c; cases c)
  case ok.ok x y =>
    exact if h : x = y then .isTrue (by rw [h]) else .isFalse (by intro c; cases c; exact h rfl)

/-! ### Validation engine -/

/-- An optional string field of the profile validator (`displayName`,
`nickname`, `bio` blocks in `validateProfileData`): type check, length
check, then trim. -/
def validateStrField (v : Option JVal) (maxLen : Nat) : Except Err (Option (List Char)) :=
  match v with
  | none => .ok none
  | some (.jstr s) =>
    if s.length > maxLen then .error .tooLong else .ok (some (trimChars s))
  | some _ => .error .typeErr

/-- One entry of the tags `.map` callback: type check, trim, drop when
empty, reject when over the tag length limit. -/
def validateTagEntry (v : JVal) : Except Err (Option (List Char)) :=
  match v with
  | .jstr s =>
    let trimmed := trimChars s
    if trimmed.length = 0 then .ok none
    else if trimmed.length > maxTagLength then .error .tagTooLong
    else .ok (some trimmed)
  | _ => .error .typeErr

/-- The `.map` over tag entries; the first thrown error aborts. -/
def mapTags : List JVal → Except Err (List (Option (List Char)))
  | [] => .ok []
  | v :: rest =>
    match validateTagEntry v with
    | .error e => .error e
    | .ok r =>
      match mapTags rest with
      | .error e => .error e
      | .ok rs => .ok (r :: rs)

/-- The tags block: array check, count check, map, `.filter(tag !== null)`,
`.slice(0, maxTagCount)`. The block is textually identical in
`validateProfileData` (part_000) and `validatePostData` (part_001), so both
embeddings share this definition. -/
def validateTags (v : JVal) : Except Err (List (List Char)) :=
  match v with
  | .jarr xs =>
    if xs.length > maxTagCount then .error .tooManyTags
    else
      match mapTags xs with
      | .error e => .error e
      | .ok rs => .ok ((rs.filterMap id).take maxTagCount)
  | _ => .error .tagNotArray

def validateOptTags (v : Option JVal) : Except Err (Option (List (List Char))) :=
  match v with
  | none => .ok none
  | some jv =>
    match validateTags jv with
    | .error e => .error e
    | .ok ts => .ok (some ts)

/-- A URL field block (`photoURL`/`siteBgUrl`/`authorBgUrl`/`coverUrl`):
type check, trim, then `if (url && !isValidURL(url)) throw`. `chk` stands
for the platform's `isValidURL`. -/
def validateUrlField (chk : List Char → Bool) (v : JVal) : Except Err (List Char) :=
  match v with
  | .jstr s =>
    let url := trimChars s
    if !url.isEmpty && !chk url then .error .invalidURL else .ok url
  | _ => .error .typeErr

def validateOptUrl (chk : List Char → Bool) (v : Option JVal) :
    Except Err (Option (List Char)) :=
  match v with
  | none => .ok none
  | some jv =>
    match validateUrlField chk jv with
    | .error e => .error e
    | .ok u => .ok (some u)

/-- The input object of `validateProfileData`; `none` = key absent. -/
structure ProfileInput where
  displayName : Option JVal := none
  nickname : Option JVal := none
  bio : Option JVal := none
  tags : Option JVal := none
  photoURL : Option JVal := none
  siteBgUrl : Option JVal := none
  authorBgUrl : Option JVal := none

/-- The `validated` object built by `validateProfileData`; a field is
`some` exactly when the input had the key. -/
structure ProfilePatch where
  displayName : Option (List Char) := none
  nickname : Option (List Char) := none
  bio : Option (List Char) := none
  tags : Option (List (List Char)) := none
  photoURL : Option (List Char) := none
  siteBgUrl : Option (List Char) := none
  authorBgUrl : Option (List Char) := none
  deriving DecidableEq

/-- `validateProfileData` from `src/unnamed/part_000`, field blocks in
source order: displayName, nickname, bio (limit 500 inline), tags, then
the URL fields photoURL, siteBgUrl, authorBgUrl. -/
def validateProfileData (chk : List Char → Bool) (d : ProfileInput) :
    Except Err ProfilePatch :=
  match validateStrField d.displayName maxDisplayNameLength with
  | .error e => .error e
  | .ok dn =>
  match validateStrField d.nickname maxDisplayNameLength with
  | .error e => .error e
  | .ok nn =>
  match validateStrField d.bio 500 with
  | .error e => .error e
  | .ok bo =>
  match validateOptTags d.tags with
  | .error e => .error e
  | .ok tg =>
  match validateOptUrl chk d.photoURL with
  | .error e => .error e
  | .ok ph =>
  match validateOptUrl chk d.siteBgUrl with
  | .error e => .error e
  | .ok sb =>
  match validateOptUrl chk d.authorBgUrl with
  | .error e => .error e
  | .ok ab => .ok ⟨dn, nn, bo, tg, ph, sb, ab⟩

/-- Re-reading a validated profile object as validator input (every stored
field is a string, tags an array of strings). -/
def ProfilePatch.toInput (p : ProfilePatch) : ProfileInput :=
  ⟨p.displayName.map .jstr, p.nickname.map .jstr, p.bio.map .jstr,
   p.tags.map (fun ts => .jarr (ts.map .jstr)),
   p.photoURL.map .jstr, p.siteBgUrl.map .jstr, p.authorBgUrl.map .jstr⟩

/-! ### Post validation (`validatePostData` in `src/unnamed/part_001`) -/

/-- The input object of `validatePostData`. -/
structure PostInput where
  title : Option JVal := none
  contentHtml : Option JVal := none
  status : Option JVal := none
  tags : Option JVal := none
  coverUrl : Option JVal := none
  slug : Option JVal := none

/-- The `validated` object built by `validatePostData`. -/
structure PostPatch where
  title : Option (List Char) := none
  contentHtml : Option (List Char) := none
  status : Option (List Char) := none
  tags : Option (List (List Char)) := none
  coverUrl : Option (List Char) := none
  slug : Option (List Char) := none
  deriving DecidableEq

/-- The title / contentHtml blocks: when the key is present, first
`if (!isUpdate && !value) throw required`, then the string type check,
then an optional length limit, then trim. -/
def validateReqStr (isUpdate : Bool) (v : Option JVal) (maxLen : Option Nat) :
    Except Err (Option (List Char)) :=
  match v with
  | none => .ok none
  | some jv =>
    if !isUpdate && jv.falsy then .error .requiredMissing
    else
      match jv with
      | .jstr s =>
        match maxLen with
        | some m => if s.length > m then .error .tooLong else .ok (some (trimChars s))
        | none => .ok (some (trimChars s))
      | _ => .error .typeErr

/-- The status block: `['draft', 'published'].includes(data.status)`;
`includes` uses strict equality, so only those two exact strings pass. -/
def validateStatusField (v : Option JVal) : Except Err (Option (List Char)) :=
  match v with
  | none => .ok none
  | some (.jstr s) =>
    if s == chars "draft" || s == chars "published" then .ok (some s)
    else .error .invalidStatus
  | some _ => .error .invalidStatus

def isAsciiAlphanum (c : Char) : Bool :=
  ('a' ≤ c && c ≤ 'z') || ('A' ≤ c && c ≤ 'Z') || ('0' ≤ c && c ≤ '9')

/-- `isValidSlug`: the regex `^[a-zA-Z0-9]+([a-zA-Z0-9-]*[a-zA-Z0-9])?$`,
whose language is exactly the non-empty strings over alphanumerics and
hyphens whose first and last characters are alphanumeric. -/
def isValidSlug (s : List Char) : Bool :=
  match s with
  | [] => false
  | c :: rest =>
    isAsciiAlphanum c
      && (c :: rest).all (fun x => isAsciiAlphanum x || x == '-')
      && isAsciiAlphanum ((c :: rest).getLast (by simp))

/-- The slug block: type check, trim, then
`if (slug && !isValidSlug(slug)) throw`. -/
def validateSlugField (v : Option JVal) : Except Err (Option (List Char)) :=
  match v with
  | none => .ok none
  | some (.jstr s) =>
    let slug := trimChars s
    if !slug.isEmpty && !isValidSlug slug then .error .invalidSlug
    else .ok (some slug)
  | some _ => .error .typeErr

/-- `validatePostData(data, isUpdate)` from `src/unnamed/part_001`, field
blocks in source order: title, contentHtml, status, tags, coverUrl, slug. -/
def validatePostData (chk : List Char → Bool) (d : PostInput) (isUpdate : Bool) :
    Except Err PostPatch :=
  match validateReqStr isUpdate d.title (some maxTitleLength) with
  | .error e => .error e
  | .ok ti =>
  match validateReqStr isUpdate d.contentHtml none with
  | .error e => .error e
  | .ok co =>
  match validateStatusField d.status with
  | .error e => .error e
  | .ok stt =>
  match validateOptTags d.tags with
  | .error e => .error e
  | .ok tg =>
  match validateOptUrl chk d.coverUrl with
  | .error e => .error e
  | .ok cv =>
  match validateSlugField d.slug with
  | .error e => .error e
  | .ok sl => .ok ⟨ti, co, stt, tg, cv, sl⟩

/-! ### Slug generation (`generateSlug` in `src/unnamed/part_001`) -/

/-- JavaScript `\w` (ASCII): letters, digits, underscore. -/
def isWordChar (c : Char) : Bool := c.isAlpha || c.isDigit || c == '_'

/-- The character class `[\s_-]` collapsed by `generateSlug`. -/
def isCollapseChar (c : Char) : Bool := jsWsChar c || c == '_' || c == '-'

/-- `.replace(/[\s_-]+/g, '-')`: each maximal run of collapse characters
becomes a single hyphen. The boolean tracks whether we are inside a run. -/
def collapseGo : Bool → List Char → List Char
  | _, [] => []
  | inRun, c :: rest =>
    if isCollapseChar c then
      if inRun then collapseGo true rest else '-' :: collapseGo true rest
    else c :: collapseGo false rest

/-- `.replace(/^-+|-+$/g, '')`. -/
def trimHyphens (l : List Char) : List Char :=
  ((l.dropWhile (fun c => c == '-')).reverse.dropWhile (fun c => c == '-')).reverse

/-- `generateSlug(title)` from `src/unnamed/part_001`: lower-case, strip
characters outside `[\w\s-]`, collapse `[\s_-]+` runs to single hyphens,
trim boundary hyphens, truncate to 50 characters; an empty (falsy) title
yields the empty string. -/
def generateSlug (title : List Char) : List Char :=
  if title.isEmpty then []
  else
    ((collapseGo false
        ((title.map Char.toLower).filter
          (fun c => isWordChar c || jsWsChar c || c == '-'))
      |> trimHyphens)).take 50

/-! ### Post store and resource managers (`src/unnamed/part_001`) -/

/-- A stored post document. Absent fields are `none`: `createPost` only
persists the keys its validator produced. -/
structure PostRecord where
  title : Option (List Char) := none
  contentHtml : Option (List Char) := none
  status : Option (List Char) := none
  tags : Option (List (List Char)) := none
  coverUrl : Option (List Char) := none
  slug : Option (List Char) := none
  authorId : List Char
  createdAt : Nat
  updatedAt : Nat
  deriving DecidableEq

/-- The `posts` collection plus the id generator for `add`. -/
structure Store where
  posts : List (List Char × PostRecord)
  counter : Nat
  deriving DecidableEq

/-- A fresh Firestore-style document id. -/
def genId (n : Nat) : List Char := chars "id" ++ (Nat.repr n).data

/-- `db.collection('posts').doc(key).get()`. -/
def docGet (st : Store) (key : List Char) : Option (List Char × PostRecord) :=
  st.posts.find? (fun e => e.1 == key)

/-- `where('slug', '==', s).limit(1)`: first document whose `slug` field
equals `s` (documents without the field never match). -/
def slugQueryFirst (st : Store) (s : List Char) : Option (List Char × PostRecord) :=
  st.posts.find? (fun e => e.2.slug == some s)

/-- `getPostByIdOrSlug(key)`: direct id lookup, then — only when the id
lookup missed and `key.length > 20` — the slug query. -/
def getPostByIdOrSlug (key : List Char) (st : Store) :
    Option (List Char × PostRecord) :=
  match docGet st key with
  | some e => some e
  | none => if key.length > 20 then slugQueryFirst st key else none

/-- `getPostBySlug(slug)` (private helper in part_001). -/
def getPostBySlug (s : List Char) (st : Store) : Option (List Char × PostRecord) :=
  slugQueryFirst st s

/-- The identity delivered by the auth provider; `none` models the `null`
current user when nobody is signed in. -/
structure User where
  uid : List Char
  deriving DecidableEq

/-- `requireAuth()` from auth.js (the document after the separator in
`src/my_Vlog-main/js/render.js`): awaits `waitForAuthInit()` — whose
resolved value is the `session` argument here — and throws "需要登录"
when it is `null`, otherwise returns the user. -/
def requireAuth (session : Option User) : Except Err User :=
  match session with
  | none => .error .unauthenticated
  | some u => .ok u

/-- `isAdmin(user)` from auth.js (in `src/my_Vlog-main/js/render.js`):
`false` for a `null` user, else `ADMIN_UIDS.includes(user.uid)`. -/
def isAdmin (user : Option User) : Bool :=
  match user with
  | none => false
  | some u => ADMIN_UIDS.contains u.uid

/-- `requireAdmin()` from auth.js (in `src/my_Vlog-main/js/render.js`):
`requireAuth()`, then throws "需要管理员权限" when `!isAdmin(user)`. -/
def requireAdmin (session : Option User) : Except Err User :=
  match requireAuth session with
  | .error e => .error e
  | .ok u => if !(isAdmin (some u)) then .error .forbidden else .ok u

/-- JavaScript truthiness of a possibly-absent string field
(`validatedData.slug`, `validatedPatch.slug`). -/
def optTruthy (o : Option (List Char)) : Bool :=
  match o with
  | some s => !s.isEmpty
  | none => false

/-- Object spread `{ ...existing, ...validatedPatch, updatedAt: now }`:
fields present in the patch win; `authorId`/`createdAt` are never in a
patch, so they come from the existing record. -/
def mergeField {α : Type} (patchVal oldVal : Option α) : Option α :=
  match patchVal with
  | some v => some v
  | none => oldVal

def applyPatch (r : PostRecord) (p : PostPatch) (now : Nat) : PostRecord :=
  { title := mergeField p.title r.title,
    contentHtml := mergeField p.contentHtml r.contentHtml,
    status := mergeField p.status r.status,
    tags := mergeField p.tags r.tags,
    coverUrl := mergeField p.coverUrl r.coverUrl,
    slug := mergeField p.slug r.slug,
    authorId := r.authorId,
    createdAt := r.createdAt,
    updatedAt := now }

/-- The object literal passed to `createPost`, before its destructuring
defaults are applied; `none` = key absent from the caller's object. -/
structure CreateInput where
  title : Option JVal := none
  contentHtml : Option JVal := none
  tags : Option JVal := none
  status : Option JVal := none
  coverUrl : Option JVal := none
  slug : Option JVal := none

/-- The destructuring
`{ title, contentHtml, tags = [], status = 'draft', coverUrl = '', slug = '' }`:
`title`/`contentHtml` have no default and stay `undefined` when absent. -/
def CreateInput.withDefaults (c : CreateInput) : PostInput :=
  { title := c.title,
    contentHtml := c.contentHtml,
    status := some (c.status.getD (.jstr (chars "draft"))),
    tags := some (c.tags.getD (.jarr [])),
    coverUrl := some (c.coverUrl.getD (.jstr [])),
    slug := some (c.slug.getD (.jstr [])) }

/-- `createPost` from `src/unnamed/part_001`: requireAdmin, validate in
create mode, slug-uniqueness check when the validated slug is truthy,
stamp `authorId`/`createdAt`/`updatedAt`, `add` a new document. On any
thrown error nothing is persisted (the throw precedes `add`). -/
def createPost (chk : List Char → Bool) (session : Option User) (c : CreateInput)
    (st : Store) (now : Nat) : Except Err (Store × (List Char × PostRecord)) :=
  match requireAdmin session with
  | .error e => .error e
  | .ok u =>
    match validatePostData chk c.withDefaults false with
    | .error e => .error e
    | .ok v =>
      if optTruthy v.slug && (getPostBySlug (v.slug.getD []) st).isSome then
        .error .slugConflict
      else
        let pd : PostRecord :=
          { title := v.title, contentHtml := v.contentHtml, status := v.status,
            tags := v.tags, coverUrl := v.coverUrl, slug := v.slug,
            authorId := u.uid, createdAt := now, updatedAt := now }
        .ok (⟨st.posts ++ [(genId st.counter, pd)], st.counter + 1⟩,
             (genId st.counter, pd))

/-- The write `db.collection('posts').doc(key).update(patch)`: Firestore's
`update` fails when no document with that id exists, otherwise merges the
patch's present fields into that document. -/
def docUpdate (st : Store) (key : List Char) (p : PostPatch) (now : Nat) :
    Except Err Store :=
  if st.posts.any (fun e => e.1 == key) then
    .ok ⟨st.posts.map (fun e => if e.1 == key then (e.1, applyPatch e.2 p now) else e),
         st.counter⟩
  else .error .backendNotFound

/-- `updatePost(id, patch)` from `src/unnamed/part_001`: requireAdmin,
resolve the target with `getPostByIdOrSlug`, `NotFound` when absent,
`Forbidden` when `existingPost.authorId !== user.uid`, validate the patch
in update mode, re-check slug uniqueness when the patch holds a truthy
slug different from the stored one (excluding a hit whose id equals the
*argument* `key`), then write to `doc(key)` — the argument, not the
resolved post's id — and return `{ id, ...existingPost, ...patch }`. -/
def updatePost (chk : List Char → Bool) (session : Option User) (key : List Char)
    (patch : PostInput) (st : Store) (now : Nat) :
    Except Err (Store × (List Char × PostRecord)) :=
  match requireAdmin session with
  | .error e => .error e
  | .ok u =>
    match getPostByIdOrSlug key st with
    | none => .error .notFound
    | some (rid, prev) =>
      if prev.authorId ≠ u.uid then .error .forbidden
      else
        match validatePostData chk patch true with
        | .error e => .error e
        | .ok vp =>
          match (if optTruthy vp.slug && vp.slug ≠ prev.slug then
                   match getPostBySlug (vp.slug.getD []) st with
                   | some (cid, _) =>
                     if cid ≠ key then .error .slugConflict else .ok ()
                   | none => .ok ()
                 else (.ok () : Except Err Unit)) with
          | .error e => .error e
          | .ok _ =>
            match docUpdate st key vp now with
            | .error e => .error e
            | .ok st2 => .ok (st2, (rid, applyPatch prev vp now))

/-- `deletePost(id)` from `src/unnamed/part_001`: requireAdmin, resolve by
id-or-slug, `NotFound` when absent, `Forbidden` when not the author, then
`doc(key).delete()` (a no-op when no document has that id). -/
def deletePost (session : Option User) (key : List Char) (st : Store) :
    Except Err Store :=
  match requireAdmin session with
  | .error e => .error e
  | .ok u =>
    match getPostByIdOrSlug key st with
    | none => .error .notFound
    | some (_, prev) =>
      if prev.authorId ≠ u.uid then .error .forbidden
      else .ok ⟨st.posts.filter (fun e => !(e.1 == key)), st.counter⟩

/-- `st'.posts` never changes or forgets an author: every stored document
keeps the `authorId` it had in `st`. -/
def authorsPreserved (old nw : Store) : Bool :=
  nw.posts.all (fun e2 =>
    old.posts.any (fun e => e.1 == e2.1 && e2.2.authorId == e.2.authorId))

/-! ### Upload mediator (`src/upload.js`) -/

/-- The relevant fields of a DOM `File`: `fileType` is `file.type`,
`size` is `file.size` in bytes. -/
structure JsFile where
  fileType : List Char
  size : Nat
  deriving DecidableEq

/-- The object `uploadImage` builds from a successful Cloudinary response. -/
structure UploadResult where
  url : List Char
  publicId : List Char
  width : Nat
  height : Nat
  format : List Char
  bytes : Nat
  deriving DecidableEq

/-- `validateImageFile(file)` from `src/upload.js`: missing file, then the
`allowedImageTypes.includes(file.type)` check, then the size limit. -/
def validateImageFile (file : Option JsFile) : Except Err Unit :=
  match file with
  | none => .error .missingFile
  | some f =>
    if !(allowedImageTypes.contains f.fileType) then .error .invalidFile
    else if f.size > maxImageSize then .error .fileTooLarge
    else .ok ()

/-- `uploadImage(file, folder)` from `src/upload.js`. Everything from the
`fetch` on (form construction, response parsing, the secure-url check) is
the external network interaction, modelled by the oracle `net`: its value
is the outcome the network path would produce. `validateImageFile` runs
strictly before it, so a validation failure is returned without the
oracle being consulted. -/
def uploadImage (net : Except Err UploadResult) (file : Option JsFile) :
    Except Err UploadResult :=
  match validateImageFile file with
  | .error e => .error e
  | .ok _ => net

/-! ### Concrete sample data used by witnesses and counterexamples -/

/-- A URL predicate accepting everything; stands in for the platform's
`isValidURL` at concrete instantiations (no claim depends on its verdict). -/
def chkAny : List Char → Bool := fun _ => true

def adminUid : List Char := chars "SjLJvvCJciUyhwWR6vaJnqQXUpx2"

def adminUser : User := ⟨adminUid⟩

def adminSession : Option User := some adminUser

/-- A stored post whose generated id is short and whose slug is a short
(7-character) string. -/
def rec3 : PostRecord :=
  { title := some (chars "T"), slug := some (chars "my-post"),
    authorId := adminUid, createdAt := 1, updatedAt := 1 }

def store3 : Store := ⟨[(chars "p1", rec3)], 0⟩

/-- A stored post whose slug is longer than 20 characters. -/
def rec3w : PostRecord :=
  { title := some (chars "T"), slug := some (chars "a-truly-long-slug-for-this-post"),
    authorId := adminUid, createdAt := 1, updatedAt := 1 }

def store3w : Store := ⟨[(chars "p1", rec3w)], 0⟩

/-- An existing post holding the slug "hello". -/
def rec4 : PostRecord :=
  { title := some (chars "Old"), contentHtml := some (chars "x"),
    status := some (chars "draft"), tags := some [], coverUrl := some [],
    slug := some (chars "hello"), authorId := adminUid, createdAt := 1, updatedAt := 1 }

def store4 : Store := ⟨[(chars "p9", rec4)], 0⟩

/-- A create call that explicitly requests the slug "hello". -/
def input4 : CreateInput :=
  { title := some (.jstr (chars "My Title")),
    contentHtml := some (.jstr (chars "body")),
    slug := some (.jstr (chars "hello")) }

/-- The patch `{ status: 'published' }` (what `publishPost` sends). -/
def patch5 : PostInput := { status := some (.jstr (chars "published")) }

/-- Its validator output. -/
def vp5 : PostPatch := { status := some (chars "published") }

def rec5a : PostRecord :=
  { title := some (chars "Mine"), status := some (chars "draft"),
    authorId := adminUid, createdAt := 1, updatedAt := 1 }

def rec5b : PostRecord :=
  { title := some (chars "Theirs"), status := some (chars "draft"),
    authorId := chars "someoneElseUid", createdAt := 2, updatedAt := 2 }

def store5 : Store := ⟨[(chars "p1", rec5a), (chars "p2", rec5b)], 0⟩

/-- `rec5a` after the `{ status: 'published' }` merge at time 7. -/
def rec5after : PostRecord :=
  { title := some (chars "Mine"), status := some (chars "published"),
    authorId := adminUid, createdAt := 1, updatedAt := 7 }

def store5after : Store :=
  ⟨[(chars "p1", rec5after), (chars "p2", rec5b)], 0⟩

/-- A profile patch whose fields need trimming and tag filtering. -/
def inp7 : ProfileInput :=
  { displayName := some (.jstr (chars "  Ann  ")),
    tags := some (.jarr [.jstr (chars " lean ")]) }

def out7 : ProfilePatch :=
  { displayName := some (chars "Ann"), tags := some [chars "lean"] }

/-- A stored post whose slug exceeds 20 characters, for exercising the
slug-fallback path of `updatePost`. -/
def rec10 : PostRecord :=
  { title := some (chars "Long"), status := some (chars "draft"),
    slug := some (chars "a-slug-that-is-way-longer-than-twenty"),
    authorId := adminUid, createdAt := 1, updatedAt := 1 }

def store10 : Store := ⟨[(chars "p1", rec10)], 0⟩

/-! ### Helper lemmas on `dropWhile` and `trimChars` -/

theorem dwLen {α : Type} (p : α → Bool) : ∀ l : List α, (l.dropWhile p).length ≤ l.length
  | [] => Nat.le_refl _
  | a :: t => by
    simp only [List.dropWhile]
    split
    · exact Nat.le_trans (dwLen p t) (Nat.le_succ _)
    · exact Nat.le_refl _

theorem dwIdem {α : Type} (p : α → Bool) :
    ∀ l : List α, (l.dropWhile p).dropWhile p = l.dropWhile p
  | [] => rfl
  | a :: t => by
    by_cases h : p a = true
    · simp only [List.dropWhile, h, if_true]
      exact dwIdem p t
    · simp [List.dropWhile, h]

theorem dwHead {α : Type} (p : α → Bool) :
    ∀ l : List α, ∀ a, (l.dropWhile p).head? = some a → p a = false
  | [], a => by simp [List.dropWhile]
  | b :: t, a => by
    by_cases h : p b = true
    · simp only [List.dropWhile, h, if_true]
      exact dwHead p t a
    · simp only [List.dropWhile, h, if_false]
      intro hh
      simp at hh
      rw [← hh]
      exact Bool.eq_false_iff.mpr h

theorem dwEqSelf {α : Type} (p : α → Bool) (l : List α)
    (h : ∀ a, l.head? = some a → p a = false) : l.dropWhile p = l := by
  cases l with
  | nil => rfl
  | cons b t => simp [List.dropWhile, h b rfl]

theorem dwSplit {α : Type} (p : α → Bool) : ∀ l : List α, ∃ s, s ++ l.dropWhile p = l
  | [] => ⟨[], rfl⟩
  | a :: t => by
    by_cases h : p a = true
    · obtain ⟨s, hs⟩ := dwSplit p t
      exact ⟨a :: s, by simp [List.dropWhile, h, hs]⟩
    · exact ⟨[], by simp [List.dropWhile, h]⟩

theorem trimLenLe (l : List Char) : (trimChars l).length ≤ l.length := by
  unfold trimChars
  calc ((l.dropWhile jsWsChar).reverse.dropWhile jsWsChar).reverse.length
      = ((l.dropWhile jsWsChar).reverse.dropWhile jsWsChar).length := List.length_reverse _
    _ ≤ (l.dropWhile jsWsChar).reverse.length := dwLen _ _
    _ = (l.dropWhile jsWsChar).length := List.length_reverse _
    _ ≤ l.length := dwLen _ _

theorem trimIdem (l : List Char) : trimChars (trimChars l) = trimChars l := by
  unfold trimChars
  have hA : ((l.dropWhile jsWsChar).reverse.dropWhile jsWsChar).reverse.dropWhile jsWsChar
      = ((l.dropWhile jsWsChar).reverse.dropWhile jsWsChar).reverse := by
    obtain ⟨s, hs⟩ := dwSplit jsWsChar (l.dropWhile jsWsChar).reverse
    have hsplit : l.dropWhile jsWsChar
        = ((l.dropWhile jsWsChar).reverse.dropWhile jsWsChar).reverse ++ s.reverse := by
      have h2 := congrArg List.reverse hs
      simp only [List.reverse_append, List.reverse_reverse] at h2
      exact h2.symm
    apply dwEqSelf
    intro a ha
    cases hur : ((l.dropWhile jsWsChar).reverse.dropWhile jsWsChar).reverse with
    | nil => rw [hur] at ha; cases ha
    | cons b t' =>
      rw [hur] at ha
      simp at ha
      subst ha
      apply dwHead jsWsChar l
      rw [hsplit, hur]
      rfl
  rw [hA, List.reverse_reverse, dwIdem]

theorem filterMapSomeId {α : Type} : ∀ ts : List α, (ts.map some).filterMap id = ts
  | [] => rfl
  | a :: t => by simp [List.filterMap_cons, filterMapSomeId t]

/-! ### Per-field idempotence lemmas for the validation engine -/

theorem strFieldIdem (v : Option JVal) (maxLen : Nat) (w : Option (List Char))
    (h : validateStrField v maxLen = .ok w) :
    validateStrField (w.map JVal.jstr) maxLen = .ok w := by
  cases v with
  | none =>
    simp only [validateStrField] at h
    injection h with h
    subst h
    rfl
  | some jv =>
    cases jv with
    | jstr s =>
      simp only [validateStrField] at h
      split at h
      · cases h
      · injection h with h
        subst h
        simp only [Option.map_some', validateStrField]
        have hle := trimLenLe s
        rw [if_neg (by omega), trimIdem]
    | jarr xs => cases h
    | jnull => cases h
    | jother => cases h

theorem tagEntryProps (v : JVal) (t : List Char)
    (h : validateTagEntry v = .ok (some t)) :
    trimChars t = t ∧ t.length ≠ 0 ∧ ¬ t.length > maxTagLength := by
  cases v with
  | jstr s =>
    simp only [validateTagEntry] at h
    split at h
    · simp at h
    · split at h
      · cases h
      · injection h with h2
        injection h2 with h3
        subst h3
        exact ⟨trimIdem s, by omega, by omega⟩
  | jarr xs => cases h
  | jnull => cases h
  | jother => cases h

theorem mapTagsProps : ∀ (xs : List JVal) (rs : List (Option (List Char))),
    mapTags xs = .ok rs → ∀ t ∈ rs.filterMap id,
      trimChars t = t ∧ t.length ≠ 0 ∧ ¬ t.length > maxTagLength
  | [], rs, h => by
    injection h with h
    subst h
    simp
  | v :: xs, rs, h => by
    simp only [mapTags] at h
    cases hv : validateTagEntry v with
    | error e => rw [hv] at h; cases h
    | ok r =>
      rw [hv] at h
      cases hm : mapTags xs with
      | error e => rw [hm] at h; cases h
      | ok rs2 =>
        rw [hm] at h
        injection h with h
        subst h
        intro t ht
        cases r with
        | none =>
          simp only [List.filterMap_cons, id] at ht
          exact mapTagsProps xs rs2 hm t ht
        | some t0 =>
          simp only [List.filterMap_cons, id, List.mem_cons] at ht
          cases ht with
          | inl he =>
            subst he
            exact tagEntryProps v t hv
          | inr hmem => exact mapTagsProps xs rs2 hm t hmem

theorem mapTagsOfProps :
    ∀ ts : List (List Char),
      (∀ t ∈ ts, trimChars t = t ∧ t.length ≠ 0 ∧ ¬ t.length > maxTagLength) →
      mapTags (ts.map .jstr) = .ok (ts.map some)
  | [], _ => rfl
  | t :: ts, h => by
    obtain ⟨ht, hn, hle⟩ := h t (List.mem_cons_self t ts)
    have hrest := mapTagsOfProps ts (fun x hx => h x (List.mem_cons_of_mem t hx))
    simp only [List.map_cons, mapTags, validateTagEntry]
    rw [ht, if_neg hn, if_neg hle, hrest]

theorem validateTagsIdem (v : JVal) (ts : List (List Char))
    (h : validateTags v = .ok ts) :
    validateTags (.jarr (ts.map .jstr)) = .ok ts := by
  cases v with
  | jarr xs =>
    simp only [validateTags] at h
    split at h
    · cases h
    · cases hm : mapTags xs with
      | error e => rw [hm] at h; cases h
      | ok rs =>
        rw [hm] at h
        injection h with h
        have hprops : ∀ t ∈ ts, trimChars t = t ∧ t.length ≠ 0 ∧ ¬ t.length > maxTagLength := by
          intro t ht
          rw [← h] at ht
          exact mapTagsProps xs rs hm t (List.mem_of_mem_take ht)
        have hlen : ts.length ≤ maxTagCount := by
          rw [← h]
          exact List.length_take_le _ _
        simp only [validateTags]
        rw [if_neg (by simp only [List.length_map]; omega), mapTagsOfProps ts hprops]
        show Except.ok ((List.filterMap id (ts.map some)).take maxTagCount) = Except.ok ts
        rw [filterMapSomeId, List.take_of_length_le hlen]
  | jstr s => cases h
  | jnull => cases h
  | jother => cases h

theorem optTagsIdem (v : Option JVal) (o : Option (List (List Char)))
    (h : validateOptTags v = .ok o) :
    validateOptTags (o.map (fun ts => JVal.jarr (ts.map .jstr))) = .ok o := by
  cases v with
  | none =>
    injection h with h
    subst h
    rfl
  | some jv =>
    simp only [validateOptTags] at h
    cases hv : validateTags jv with
    | error e => rw [hv] at h; cases h
    | ok ts =>
      rw [hv] at h
      injection h with h
      subst h
      simp only [Option.map_some', validateOptTags]
      rw [validateTagsIdem jv ts hv]

theorem urlFieldIdem (chk : List Char → Bool) (jv : JVal) (u : List Char)
    (h : validateUrlField chk jv = .ok u) :
    validateUrlField chk (.jstr u) = .ok u := by
  cases jv with
  | jstr s =>
    simp only [validateUrlField] at h
    split at h
    · cases h
    · injection h with h
      subst h
      simp only [validateUrlField]
      rw [trimIdem]
      split
      · next hcond =>
        next hcond2 =>
          exact absurd hcond hcond2
      · rfl
  | jarr xs => cases h
  | jnull => cases h
  | jother => cases h

theorem optUrlIdem (chk : List Char → Bool) (v : Option JVal) (o : Option (List Char))
    (h : validateOptUrl chk v = .ok o) :
    validateOptUrl chk (o.map .jstr) = .ok o := by
  cases v with
  | none =>
    injection h with h
    subst h
    rfl
  | some jv =>
    simp only [validateOptUrl] at h
    cases hv : validateUrlField chk jv with
    | error e => rw [hv] at h; cases h
    | ok u =>
      rw [hv] at h
      injection h with h
      subst h
      simp only [Option.map_some', validateOptUrl]
      rw [urlFieldIdem chk jv u hv]

/-! ### Claim theorems -/

/-- C7: for every partial profile input that passes validation,
`validateProfileData` is idempotent — re-validating its own output (read
back as an input object) returns exactly that output. -/
theorem profileValidationIdempotent (chk : List Char → Bool) (d : ProfileInput)
    (out : ProfilePatch) (h : validateProfileData chk d = .ok out) :
    validateProfileData chk out.toInput = .ok out := by
  unfold validateProfileData at h
  cases h1 : validateStrField d.displayName maxDisplayNameLength with
  | error e => rw [h1] at h; cases h
  | ok dn =>
  rw [h1] at h
  cases h2 : validateStrField d.nickname maxDisplayNameLength with
  | error e => rw [h2] at h; cases h
  | ok nn =>
  rw [h2] at h
  cases h3 : validateStrField d.bio 500 with
  | error e => rw [h3] at h; cases h
  | ok bo =>
  rw [h3] at h
  cases h4 : validateOptTags d.tags with
  | error e => rw [h4] at h; cases h
  | ok tg =>
  rw [h4] at h
  cases h5 : validateOptUrl chk d.photoURL with
  | error e => rw [h5] at h; cases h
  | ok ph =>
  rw [h5] at h
  cases h6 : validateOptUrl chk d.siteBgUrl with
  | error e => rw [h6] at h; cases h
  | ok sb =>
  rw [h6] at h
  cases h7 : validateOptUrl chk d.authorBgUrl with
  | error e => rw [h7] at h; cases h
  | ok ab =>
  rw [h7] at h
  injection h with h
  subst h
  simp only [ProfilePatch.toInput, validateProfileData,
    strFieldIdem _ _ _ h1, strFieldIdem _ _ _ h2, strFieldIdem _ _ _ h3,
    optTagsIdem _ _ h4, optUrlIdem chk _ _ h5, optUrlIdem chk _ _ h6,
    optUrlIdem chk _ _ h7]

/-- Witness for C7 at a concrete input needing trimming and tag filtering. -/
theorem profileValidationIdempotentWitness :
    validateProfileData chkAny inp7 = .ok out7 ∧
    validateProfileData chkAny out7.toInput = .ok out7 :=
  ⟨by decide, profileValidationIdempotent chkAny inp7 out7 (by decide)⟩

/-- C1 counterexample: an 11-entry tag sequence, every entry of which is
whitespace-only (so filtering would leave 0 entries), is rejected outright
with the count error by both validators — validation fails solely because
the sequence's length before filtering exceeds the configured max, and
nothing is truncated. -/
theorem tagOverflowRejectedOutright :
    validateProfileData chkAny
        { tags := some (.jarr (List.replicate 11 (.jstr [' ']))) }
      = .error .tooManyTags
    ∧ validatePostData chkAny
        { tags := some (.jarr (List.replicate 11 (.jstr [' ']))) } true
      = .error .tooManyTags :=
  ⟨by decide, by decide⟩

/-- C1 amended: a tag sequence whose length before filtering exceeds the
configured max count makes the whole validation fail with the count error
(in both the profile and the post validator); for sequences that pass the
count check, the filtered result never exceeds the max count. -/
theorem tagCountLimitBehavior (chk : List Char → Bool) (xs : List JVal) (isUp : Bool) :
    (xs.length > maxTagCount →
      validateProfileData chk { tags := some (.jarr xs) } = .error .tooManyTags
      ∧ validatePostData chk { tags := some (.jarr xs) } isUp = .error .tooManyTags)
    ∧ (∀ ts, validateTags (.jarr xs) = .ok ts → ts.length ≤ maxTagCount) := by
  constructor
  · intro h
    have htags : validateTags (.jarr xs) = .error .tooManyTags := by
      simp only [validateTags]
      rw [if_pos h]
    constructor
    · simp only [validateProfileData, validateStrField, validateOptTags, htags]
    · simp only [validatePostData, validateReqStr, validateStatusField,
        validateOptTags, htags]
  · intro ts hts
    simp only [validateTags] at hts
    split at hts
    · cases hts
    · cases hm : mapTags xs with
      | error e => rw [hm] at hts; cases hts
      | ok rs =>
        rw [hm] at hts
        injection hts with hts
        rw [← hts]
        exact List.length_take_le _ _

/-- Witness for C1's amended statement: the failure branch at 11 one-letter
tags, and the bound at a singleton tag list. -/
theorem tagCountLimitBehaviorWitness :
    (validateProfileData chkAny
        { tags := some (.jarr (List.replicate 11 (.jstr ['a']))) }
      = .error .tooManyTags)
    ∧ (validatePostData chkAny
        { tags := some (.jarr (List.replicate 11 (.jstr ['a']))) } false
      = .error .tooManyTags)
    ∧ [chars "lean"].length ≤ maxTagCount :=
  ⟨((tagCountLimitBehavior chkAny (List.replicate 11 (.jstr ['a'])) false).1
      (by decide)).1,
   ((tagCountLimitBehavior chkAny (List.replicate 11 (.jstr ['a'])) false).1
      (by decide)).2,
   (tagCountLimitBehavior chkAny [.jstr (chars "lean")] false).2
      [chars "lean"] (by decide)⟩

/-- C2 counterexample: in create mode an input whose required `title` key
is absent passes validation (the `data.title !== undefined` gate skips the
required check), so create-mode validation does not fail on a missing
required field. -/
theorem createModeMissingTitlePasses :
    validatePostData chkAny { contentHtml := some (.jstr (chars "x")) } false
      = .ok { contentHtml := some (chars "x") } := by decide

/-- C2 amended: in create mode a required field that is *present but empty*
fails validation with the required-field error (title first, then
contentHtml when the title key is absent); a required field that is absent
is skipped by the key-presence gate, so absence alone never fails. -/
theorem createModeEmptyRequiredFails (chk : List Char → Bool) (d : PostInput) :
    (d.title = some (.jstr []) →
      validatePostData chk d false = .error .requiredMissing)
    ∧ (d.title = none → d.contentHtml = some (.jstr []) →
      validatePostData chk d false = .error .requiredMissing) := by
  constructor
  · intro h
    simp only [validatePostData, h, validateReqStr, JVal.falsy, List.isEmpty,
      Bool.not_false, Bool.true_and, if_true]
  · intro h1 h2
    simp only [validatePostData, h1, h2, validateReqStr, JVal.falsy, List.isEmpty,
      Bool.not_false, Bool.true_and, if_true]

/-- Witness for C2's amended statement at concrete empty-field inputs. -/
theorem createModeEmptyRequiredFailsWitness :
    validatePostData chkAny { title := some (.jstr []) } false
      = .error .requiredMissing
    ∧ validatePostData chkAny { contentHtml := some (.jstr []) } false
      = .error .requiredMissing :=
  ⟨(createModeEmptyRequiredFails chkAny { title := some (.jstr []) }).1 rfl,
   (createModeEmptyRequiredFails chkAny { contentHtml := some (.jstr []) }).2 rfl rfl⟩

/-- C3 counterexample: `store3` holds exactly one post, id `"p1"` (2
characters) with the distinct non-empty slug `"my-post"` (7 characters).
Lookup by id finds it, but lookup by the slug returns nothing, because the
slug fallback only runs for keys longer than 20 characters — so the claim
that both keys resolve to the same stored post is false. -/
theorem getPostByIdOrSlugShortSlugMiss :
    getPostByIdOrSlug (chars "p1") store3 = some (chars "p1", rec3)
    ∧ slugQueryFirst store3 (chars "my-post") = some (chars "p1", rec3)
    ∧ getPostByIdOrSlug (chars "my-post") store3 = none :=
  ⟨by decide, by decide, by decide⟩

/-- C3 amended: for a stored post with a distinct non-empty slug,
`getPostByIdOrSlug` returns that post for its id, and for the slug *when
the slug is longer than 20 characters* (and no document's id equals the
slug); the lookup tries the id first and runs the slug query only on an id
miss with a key longer than 20. -/
theorem getPostByIdOrSlugResolves (st : Store) (pid s : List Char) (r : PostRecord)
    (hid : docGet st pid = some (pid, r))
    (_hslug : r.slug = some s)
    (hnotid : docGet st s = none)
    (hlong : s.length > 20)
    (hq : slugQueryFirst st s = some (pid, r)) :
    getPostByIdOrSlug pid st = some (pid, r)
    ∧ getPostByIdOrSlug s st = some (pid, r) := by
  constructor
  · simp only [getPostByIdOrSlug, hid]
  · simp only [getPostByIdOrSlug, hnotid, if_pos hlong, hq]

/-- Witness for C3's amended statement on a store whose single post has a
31-character slug. -/
theorem getPostByIdOrSlugResolvesWitness :
    getPostByIdOrSlug (chars "p1") store3w = some (chars "p1", rec3w)
    ∧ getPostByIdOrSlug (chars "a-truly-long-slug-for-this-post") store3w
      = some (chars "p1", rec3w) :=
  getPostByIdOrSlugResolves store3w (chars "p1")
    (chars "a-truly-long-slug-for-this-post") rec3w
    (by decide) (by decide) (by decide) (by decide) (by decide)

/-- C6: `generateSlug` (the spec's `deriveSlug`) lower-cases, strips
characters outside word/whitespace/hyphen, collapses whitespace /
underscore / hyphen runs to single hyphens, trims boundary hyphens and
truncates to 50 characters — `generateSlug` is that pipeline by
definition, its output never exceeds 50 characters, and it maps
"Hello, World!  Test_123" to "hello-world-test-123" and "---" to "". -/
theorem generateSlugSpec :
    (∀ t : List Char, (generateSlug t).length ≤ 50)
    ∧ generateSlug (chars "Hello, World!  Test_123") = chars "hello-world-test-123"
    ∧ generateSlug (chars "---") = [] := by
  refine ⟨?_, by decide, by decide⟩
  intro t
  unfold generateSlug
  split
  · simp
  · exact List.length_take_le _ _

/-- C8: `uploadImage` rejects a file whose declared type is outside the
configured allow-list with the invalid-file error, and an allowed file
larger than the configured maximum with the too-large error; the result is
the same for every network oracle `net`, i.e. the failure is decided
before any network call is attempted. -/
theorem uploadValidatesBeforeNetwork (net : Except Err UploadResult) (f : JsFile) :
    (allowedImageTypes.contains f.fileType = false →
      uploadImage net (some f) = .error .invalidFile)
    ∧ (allowedImageTypes.contains f.fileType = true → f.size > maxImageSize →
      uploadImage net (some f) = .error .fileTooLarge) := by
  constructor
  · intro h
    simp only [uploadImage, validateImageFile, h, Bool.not_false, if_true]
  · intro h1 h2
    simp only [uploadImage, validateImageFile, h1, Bool.not_true, Bool.false_eq_true,
      if_false, if_pos h2]

/-- Witness for C8: a text file is rejected even when the network oracle
would fail, and an oversized png is rejected even when the oracle would
succeed — two different oracles, same validation verdicts. -/
theorem uploadValidatesBeforeNetworkWitness :
    uploadImage (.error .uploadFailed) (some ⟨chars "text/plain", 100⟩)
      = .error .invalidFile
    ∧ uploadImage (.ok ⟨chars "u", chars "p", 1, 1, chars "png", 9⟩)
        (some ⟨chars "image/png", 6000000⟩)
      = .error .fileTooLarge :=
  ⟨(uploadValidatesBeforeNetwork (.error .uploadFailed)
      ⟨chars "text/plain", 100⟩).1 (by decide),
   (uploadValidatesBeforeNetwork (.ok ⟨chars "u", chars "p", 1, 1, chars "png", 9⟩)
      ⟨chars "image/png", 6000000⟩).2 (by decide) (by decide)⟩

/-- C5: for an `updatePost` call whose session passes the admin check —
if the target does not resolve the call fails with the not-found error; if
it resolves to a post of another author the call fails with the forbidden
error before any write (the result carries no store, mirroring that the
throw precedes the write); and if the caller owns a post found by direct
id lookup and the patch validates (with no slug change), the update
succeeds, merging the patch into that document. -/
theorem updatePostAuthz (chk : List Char → Bool) (session : Option User) (u : User)
    (st : Store) (key : List Char) (patch : PostInput) (now : Nat)
    (hadm : requireAdmin session = .ok u) :
    (getPostByIdOrSlug key st = none →
      updatePost chk session key patch st now = .error .notFound)
    ∧ (∀ rid prev, getPostByIdOrSlug key st = some (rid, prev) →
        prev.authorId ≠ u.uid →
        updatePost chk session key patch st now = .error .forbidden)
    ∧ (∀ prev vp, docGet st key = some (key, prev) →
        prev.authorId = u.uid →
        validatePostData chk patch true = .ok vp →
        (vp.slug = none ∨ vp.slug = some [] ∨ vp.slug = prev.slug) →
        updatePost chk session key patch st now =
          .ok (⟨st.posts.map
                  (fun e => if e.1 == key then (e.1, applyPatch e.2 vp now) else e),
                st.counter⟩,
               (key, applyPatch prev vp now))) := by
  refine ⟨?_, ?_, ?_⟩
  · intro h
    simp only [updatePost, hadm, h]
  · intro rid prev h hne
    simp only [updatePost, hadm, h]
    rw [if_pos hne]
  · intro prev vp hdoc hown hval hslug
    have hres : getPostByIdOrSlug key st = some (key, prev) := by
      simp only [getPostByIdOrSlug, hdoc]
    have hfind : st.posts.find? (fun e => e.1 == key) = some (key, prev) := hdoc
    have hany : st.posts.any (fun e => e.1 == key) = true :=
      List.any_eq_true.mpr
        ⟨(key, prev), List.mem_of_find?_eq_some hfind,
         by have hp := List.find?_some hfind; exact hp⟩
    simp only [updatePost, hadm, hres, hval]
    rw [if_neg (fun hc => hc hown)]
    have hguard : (optTruthy vp.slug && decide ¬(vp.slug = prev.slug)) = false := by
      rcases hslug with h | h | h <;> simp [optTruthy, h]
    rw [hguard]
    simp only [if_false, docUpdate]
    rw [if_pos hany]
    simp

/-- Witness for C5: on `store5`, a missing key gives not-found, the other
author's post gives forbidden, and the caller's own post is updated. -/
theorem updatePostAuthzWitness :
    updatePost chkAny adminSession (chars "zz") patch5 store5 7 = .error .notFound
    ∧ updatePost chkAny adminSession (chars "p2") patch5 store5 7 = .error .forbidden
    ∧ updatePost chkAny adminSession (chars "p1") patch5 store5 7
        = .ok (store5after, (chars "p1", rec5after)) :=
  ⟨(updatePostAuthz chkAny adminSession adminUser store5 (chars "zz") patch5 7
      (by decide)).1 (by decide),
   (updatePostAuthz chkAny adminSession adminUser store5 (chars "p2") patch5 7
      (by decide)).2.1 (chars "p2") rec5b (by decide) (by decide),
   Eq.trans
     ((updatePostAuthz chkAny adminSession adminUser store5 (chars "p1") patch5 7
        (by decide)).2.2 rec5a vp5 (by decide) (by decide) (by decide)
        (Or.inl (by decide)))
     (by decide)⟩

/-- C4: with an admin session and a create input whose validated slug `s`
is non-empty and already held by exactly one stored post (owned by the
caller and reachable by its id), `createPost` fails with the slug-conflict
error (persisting nothing — the throw precedes `add`); `deletePost` on the
conflicting post succeeds, and `createPost` of the same input on the
resulting store succeeds, appending the new record. -/
theorem createPostSlugConflictThenRetry (chk : List Char → Bool)
    (session : Option User) (u : User) (c : CreateInput) (st : Store)
    (now : Nat) (v : PostPatch) (s cid : List Char) (crec : PostRecord)
    (hadm : requireAdmin session = .ok u)
    (hval : validatePostData chk c.withDefaults false = .ok v)
    (hslug : v.slug = some s) (hne : s ≠ [])
    (hfound : getPostBySlug s st = some (cid, crec))
    (hbyid : docGet st cid = some (cid, crec))
    (hown : crec.authorId = u.uid)
    (honly : ∀ e ∈ st.posts, e.2.slug = some s → e.1 = cid) :
    createPost chk session c st now = .error .slugConflict
    ∧ deletePost session cid st
        = .ok ⟨st.posts.filter (fun e => !(e.1 == cid)), st.counter⟩
    ∧ createPost chk session c
        ⟨st.posts.filter (fun e => !(e.1 == cid)), st.counter⟩ now
      = .ok (⟨st.posts.filter (fun e => !(e.1 == cid))
                ++ [(genId st.counter,
                     { title := v.title, contentHtml := v.contentHtml,
                       status := v.status, tags := v.tags,
                       coverUrl := v.coverUrl, slug := v.slug,
                       authorId := u.uid, createdAt := now, updatedAt := now })],
              st.counter + 1⟩,
             (genId st.counter,
              { title := v.title, contentHtml := v.contentHtml,
                status := v.status, tags := v.tags,
                coverUrl := v.coverUrl, slug := v.slug,
                authorId := u.uid, createdAt := now, updatedAt := now })) := by
  have hgetd : v.slug.getD [] = s := by rw [hslug]; rfl
  have hstruthy : optTruthy v.slug = true := by
    rw [hslug]
    cases s with
    | nil => exact absurd rfl hne
    | cons a t => rfl
  refine ⟨?_, ?_, ?_⟩
  · simp only [createPost, hadm, hval]
    rw [if_pos (by rw [hstruthy, hgetd, hfound]; rfl)]
  · simp only [deletePost, hadm, getPostByIdOrSlug, hbyid]
    rw [if_neg (fun hc => hc hown)]
  · have hnone : getPostBySlug s
        ⟨st.posts.filter (fun e => !(e.1 == cid)), st.counter⟩ = none := by
      simp only [getPostBySlug, slugQueryFirst]
      apply List.find?_eq_none.mpr
      intro e he hp
      have hmf := List.mem_filter.mp he
      have heq : e.2.slug = some s := eq_of_beq hp
      have hid := honly e hmf.1 heq
      have hcontra := hmf.2
      rw [hid] at hcontra
      simp at hcontra
    simp only [createPost, hadm, hval]
    rw [if_neg (by rw [hstruthy, hgetd, hnone]; simp)]

/-- Witness for C4 on `store4`: creating with slug "hello" conflicts,
deleting the holder empties the store, and re-creating then succeeds. -/
theorem createPostSlugConflictThenRetryWitness :
    createPost chkAny adminSession input4 store4 5 = .error .slugConflict
    ∧ deletePost adminSession (chars "p9") store4 = .ok ⟨[], 0⟩
    ∧ createPost chkAny adminSession input4 ⟨[], 0⟩ 5
      = .ok (⟨[(chars "id0",
                { title := some (chars "My Title"),
                  contentHtml := some (chars "body"),
                  status := some (chars "draft"), tags := some [],
                  coverUrl := some [], slug := some (chars "hello"),
                  authorId := adminUid, createdAt := 5, updatedAt := 5 })], 1⟩,
             (chars "id0",
              { title := some (chars "My Title"),
                contentHtml := some (chars "body"),
                status := some (chars "draft"), tags := some [],
                coverUrl := some [], slug := some (chars "hello"),
                authorId := adminUid, createdAt := 5, updatedAt := 5 })) := by
  have h := createPostSlugConflictThenRetry chkAny adminSession adminUser input4
    store4 5
    { title := some (chars "My Title"), contentHtml := some (chars "body"),
      status := some (chars "draft"), tags := some [], coverUrl := some [],
      slug := some (chars "hello") }
    (chars "hello") (chars "p9") rec4
    (by decide) (by decide) (by decide) (by decide) (by decide) (by decide)
    (by decide) (by decide)
  exact ⟨h.1, Eq.trans h.2.1 (by decide), Eq.trans h.2.2 (by decide)⟩

/-- C9: a post's `authorId` is immutable under `updatePost`: whenever the
call succeeds, every document in the resulting store keeps the `authorId`
it had before — the validator only ever produces title, contentHtml,
status, tags, coverUrl and slug, and the write merges only those plus
`updatedAt`, never `authorId`. -/
theorem updatePostKeepsAuthors (chk : List Char → Bool) (session : Option User)
    (key : List Char) (patch : PostInput) (st : Store) (now : Nat)
    (st2 : Store) (res : List Char × PostRecord)
    (h : updatePost chk session key patch st now = .ok (st2, res)) :
    authorsPreserved st st2 = true := by
  unfold updatePost at h
  cases hadm : requireAdmin session with
  | error e => rw [hadm] at h; simp only [] at h; cases h
  | ok u =>
  rw [hadm] at h
  simp only [] at h
  cases hres : getPostByIdOrSlug key st with
  | none => rw [hres] at h; simp only [] at h; cases h
  | some e0 =>
  rw [hres] at h
  obtain ⟨rid, prev⟩ := e0
  simp only [] at h
  split at h
  · cases h
  · cases hval : validatePostData chk patch true with
    | error e => rw [hval] at h; simp only [] at h; cases h
    | ok vp =>
    rw [hval] at h
    simp only [] at h
    cases hg : (if optTruthy vp.slug && (vp.slug ≠ prev.slug) then
                  match getPostBySlug (vp.slug.getD []) st with
                  | some (cid, _) =>
                    if cid ≠ key then Except.error Err.slugConflict else Except.ok ()
                  | none => Except.ok ()
                else (Except.ok () : Except Err Unit)) with
    | error e => rw [hg] at h; simp only [] at h; cases h
    | ok w =>
    rw [hg] at h
    simp only [] at h
    cases hdu : docUpdate st key vp now with
    | error e => rw [hdu] at h; simp only [] at h; cases h
    | ok stW =>
    rw [hdu] at h
    simp only [] at h
    injection h with h
    injection h with h1 h2
    subst h1
    unfold docUpdate at hdu
    split at hdu
    · injection hdu with hdu
      subst hdu
      unfold authorsPreserved
      rw [List.all_eq_true]
      intro e2 hm
      obtain ⟨e, he, hfe⟩ := List.mem_map.mp hm
      rw [List.any_eq_true]
      refine ⟨e, he, ?_⟩
      rw [← hfe]
      by_cases hk : (e.1 == key) = true <;> simp [hk, applyPatch]
    · cases hdu

/-- Witness for C9: a successful concrete update preserves every author. -/
theorem updatePostKeepsAuthorsWitness :
    updatePost chkAny adminSession (chars "p1") patch5 store5 7
      = .ok (store5after, (chars "p1", rec5after))
    ∧ authorsPreserved store5 store5after = true :=
  ⟨by decide,
   updatePostKeepsAuthors chkAny adminSession (chars "p1") patch5 store5 7
     store5after (chars "p1", rec5after) (by decide)⟩

/-- C10: when `updatePost`'s direct id lookup misses and the target is
resolved through the slug fallback (key longer than 20 characters), the
write is still issued against `doc(key)` — the key itself, not the
resolved post's id. Since no document's id equals the key in that case,
the modelled Firestore `update` fails with its not-found error, and no
document is modified. -/
theorem updatePostWritesToArgumentKey (chk : List Char → Bool)
    (session : Option User) (u : User) (st : Store) (key : List Char)
    (patch : PostInput) (now : Nat) (rid : List Char) (rrec : PostRecord)
    (vp : PostPatch)
    (hadm : requireAdmin session = .ok u)
    (hmiss : docGet st key = none)
    (hlong : key.length > 20)
    (hq : slugQueryFirst st key = some (rid, rrec))
    (hown : rrec.authorId = u.uid)
    (hval : validatePostData chk patch true = .ok vp)
    (hslug : vp.slug = none ∨ vp.slug = some []) :
    updatePost chk session key patch st now = .error .backendNotFound := by
  have hres : getPostByIdOrSlug key st = some (rid, rrec) := by
    simp only [getPostByIdOrSlug, hmiss, if_pos hlong, hq]
  have hfindnone : st.posts.find? (fun e => e.1 == key) = none := hmiss
  have hany : st.posts.any (fun e => e.1 == key) = false := by
    rw [List.any_eq_false]
    intro e he
    exact List.find?_eq_none.mp hfindnone e he
  have hguard : (optTruthy vp.slug && decide ¬(vp.slug = rrec.slug)) = false := by
    rcases hslug with h | h <;> simp [optTruthy, h]
  simp only [updatePost, hadm, hres, hval]
  rw [if_neg (fun hc => hc hown), hguard]
  simp only [if_false, docUpdate, hany]
  simp

/-- Witness for C10: updating `store10`'s only post through its 37-character
slug fails at the write, because the write targets the slug string as a
document id. -/
theorem updatePostWritesToArgumentKeyWitness :
    updatePost chkAny adminSession
        (chars "a-slug-that-is-way-longer-than-twenty") patch5 store10 9
      = .error .backendNotFound :=
  updatePostWritesToArgumentKey chkAny adminSession adminUser store10
    (chars "a-slug-that-is-way-longer-than-twenty") patch5 9 (chars "p1") rec10
    vp5 (by decide) (by decide) (by decide) (by decide) (by decide) (by decide)
    (Or.inl (by decide))
